import Mathlib

/-!
Shallow embedding of `src/moto/servicecatalog/models.py` (the moto
ServiceCatalog backend): the `Portfolio` resource, the
`ServiceCatalogBackend` registry state, and its operations
`list_portfolio_access`, `delete_portfolio`, `delete_portfolio_share`,
`create_portfolio`, `create_portfolio_share` and `list_portfolios`.

Python dictionaries are embedded as insertion-ordered association lists
(`List (String × α)`) together with `dictGet` / `dictSet` / `dictDel` /
`dictContains`, which realize the dict operations used by the source.
Python truthiness of the `Optional[str]` and `Optional[Dict[str, str]]`
arguments (`if account_id:`, `if organization_node:`,
`if idempotency_token:`) is embedded by `truthyStr` / `truthyDict`:
`None`, the empty string and the empty dict are falsy.

`uuid.uuid4()` and `datetime.now()` are modelled by a deterministic
supply: the state carries a `uuid_counter` and an integer `clock`, both
bumped on each creation.  `self.portfolios[portfolio_id]` on a missing
key raises `KeyError` in Python; `create_portfolio` therefore returns an
`Option`, `none` being the uncaught `KeyError`.
-/

namespace ServiceCatalog

/-- A Python `Dict[str, str]` value (tags, organization nodes), as an
insertion-ordered association list. -/
abbrev StrDict := List (String × String)

/-- A tag, `Dict[str, str]` in the source. -/
abbrev Tag := StrDict

/-- Python `d.get(k)` on an insertion-ordered dict. -/
def dictGet {α : Type} (d : List (String × α)) (k : String) : Option α :=
  (d.find? (fun e => e.fst == k)).map (fun e => e.snd)

/-- Python `k in d`. -/
def dictContains {α : Type} (d : List (String × α)) (k : String) : Bool :=
  d.any (fun e => e.fst == k)

/-- Python `d[k] = v`: replaces the value in place when the key is
present (keeping its position), otherwise appends the new entry. -/
def dictSet {α : Type} (d : List (String × α)) (k : String) (v : α) :
    List (String × α) :=
  match d with
  | [] => [(k, v)]
  | e :: rest => if e.fst == k then (k, v) :: rest else e :: dictSet rest k v

/-- Python `del d[k]`: drops the entry with key `k`. -/
def dictDel {α : Type} (d : List (String × α)) (k : String) :
    List (String × α) :=
  d.filter (fun e => e.fst != k)

/-- Python `d.get(k, default)` for string dicts. -/
def dict_get_default (d : StrDict) (k default : String) : String :=
  (dictGet d k).getD default

/-- Python truthiness of an `Optional[str]`: `None` and `""` are falsy. -/
def truthyStr : Option String → Bool
  | none => false
  | some s => !(s == "")

/-- Python truthiness of an `Optional[Dict[str, str]]`: `None` and the
empty dict are falsy. -/
def truthyDict : Option StrDict → Bool
  | none => false
  | some d => !d.isEmpty

/-- Modelled from the spec: `get_partition` lives in
`moto.utilities.utils`, which is not under `src/`; the spec only gives
the ARN format `arn:<partition>:catalog:<region>:<account>:portfolio/<id>`.
Every region is mapped to the standard partition. -/
def get_partition (_region_name : String) : String := "aws"

/-- `datetime.isoformat()` on the integer clock that models
`datetime.now()`. -/
def isoformat (t : Nat) : String := toString t

/-- `uuid.uuid4()`, modelled as a deterministic supply indexed by the
state's `uuid_counter`. -/
def uuid4 (counter : Nat) : String := "uuid-" ++ toString counter

/-- The `Portfolio` resource (`Portfolio.__init__`). -/
structure Portfolio where
  id : String
  display_name : String
  description : String
  provider_name : String
  created_time : Nat
  tags : List Tag
  region_name : String
  account_id : String
deriving DecidableEq, Repr

/-- `Portfolio.arn`. -/
def Portfolio.arn (p : Portfolio) : String :=
  "arn:" ++ get_partition p.region_name ++ ":catalog:" ++ p.region_name ++
    ":" ++ p.account_id ++ ":portfolio/" ++ p.id

/-- The record returned by `Portfolio.to_dict`. -/
structure PortfolioSummary where
  Id : String
  ARN : String
  DisplayName : String
  Description : String
  CreatedTime : String
  ProviderName : String
deriving DecidableEq, Repr

/-- `Portfolio.to_dict`. -/
def Portfolio.to_dict (p : Portfolio) : PortfolioSummary :=
  { Id := p.id
    ARN := p.arn
    DisplayName := p.display_name
    Description := p.description
    CreatedTime := isoformat p.created_time
    ProviderName := p.provider_name }

/-- The record returned for each account by `list_portfolio_access`. -/
structure AccessRecord where
  account_id : String
deriving DecidableEq, Repr

/-- The `ServiceCatalogBackend` registry state: the three maps set up in
`__init__`, plus the deterministic supply for `uuid.uuid4()` and
`datetime.now()`. -/
structure ServiceCatalogBackend where
  region_name : String
  account_id : String
  portfolio_access : List (String × List String)
  portfolios : List (String × Portfolio)
  idempotency_tokens : List (String × String)
  uuid_counter : Nat
  clock : Nat
deriving DecidableEq, Repr

namespace ServiceCatalogBackend

/-- `ServiceCatalogBackend.__init__`: all three maps start empty. -/
def init (region_name account_id : String) : ServiceCatalogBackend :=
  { region_name := region_name
    account_id := account_id
    portfolio_access := []
    portfolios := []
    idempotency_tokens := []
    uuid_counter := 0
    clock := 0 }

/-- The access list of a portfolio: `self.portfolio_access.get(portfolio_id, [])`. -/
def accessOf (s : ServiceCatalogBackend) (portfolio_id : String) : List String :=
  (dictGet s.portfolio_access portfolio_id).getD []

/-- Modelled from the spec: the `paginate` decorator
(`moto.utilities.paginator`) is not under `src/`.  Per the spec it
returns at most `page_size` records (defaulting to the pagination
model's `limit_default`) starting at the opaque cursor `page_token`,
modelled as a start index, plus a next token when more results remain. -/
def paginate {α : Type} (limit_default : Nat) (page_token : Option Nat)
    (page_size : Option Nat) (results : List α) : List α × Option Nat :=
  let start := page_token.getD 0
  let limit := page_size.getD limit_default
  let page := (results.drop start).take limit
  let next_token :=
    if start + limit < results.length then some (start + limit) else none
  (page, next_token)

/-- The records built by the body of `list_portfolio_access`, before the
`paginate` decorator pages them. -/
def list_portfolio_access_results (s : ServiceCatalogBackend)
    (portfolio_id : String) : List AccessRecord :=
  (s.accessOf portfolio_id).map (fun account_id => ⟨account_id⟩)

/-- `list_portfolio_access`, with its `paginate` decoration
(`PAGINATION_MODEL` gives it `limit_default` 20). -/
def list_portfolio_access (s : ServiceCatalogBackend)
    (_accept_language : Option String) (portfolio_id : String)
    (_organization_parent_id : Option String) (page_token : Option Nat)
    (page_size : Option Nat) : List AccessRecord × Option Nat :=
  paginate 20 page_token page_size (s.list_portfolio_access_results portfolio_id)

/-- `delete_portfolio`: drop the access-list entry if present, then the
portfolio entry if present; returns `None`. -/
def delete_portfolio (s : ServiceCatalogBackend)
    (_accept_language : Option String) (id : String) : ServiceCatalogBackend :=
  let s1 :=
    if dictContains s.portfolio_access id then
      { s with portfolio_access := dictDel s.portfolio_access id }
    else s
  if dictContains s1.portfolios id then
    { s1 with portfolios := dictDel s1.portfolios id }
  else s1

/-- `delete_portfolio_share`: when `account_id` is truthy and the
portfolio has an access-list entry containing it, `list.remove` drops
its first occurrence; when `organization_node` is truthy, a share token
is synthesized and returned. -/
def delete_portfolio_share (s : ServiceCatalogBackend)
    (_accept_language : Option String) (portfolio_id : String)
    (account_id : Option String) (organization_node : Option StrDict) :
    ServiceCatalogBackend × Option String :=
  let s1 :=
    if truthyStr account_id && dictContains s.portfolio_access portfolio_id then
      let lst := s.accessOf portfolio_id
      if lst.contains (account_id.getD "") then
        { s with portfolio_access := (dictSet s.portfolio_access portfolio_id
            (lst.erase (account_id.getD ""))) }
      else s
    else s
  let portfolio_share_token :=
    if truthyDict organization_node then
      some ("share-" ++ portfolio_id ++ "-" ++
        dict_get_default (organization_node.getD []) "Type" "" ++ "-" ++
        dict_get_default (organization_node.getD []) "Value" "")
    else none
  (s1, portfolio_share_token)

/-- `create_portfolio`.  When the idempotency token is truthy and
recorded, the stored portfolio is returned; `self.portfolios[portfolio_id]`
raises `KeyError` (here `none`) if that portfolio is gone.  Otherwise a
fresh portfolio is created, stored, the token recorded when truthy, and
an empty access list installed. -/
def create_portfolio (s : ServiceCatalogBackend)
    (_accept_language : Option String) (display_name : String)
    (description : Option String) (provider_name : String)
    (tags : Option (List Tag)) (idempotency_token : Option String) :
    Option (ServiceCatalogBackend × PortfolioSummary × List Tag) :=
  if truthyStr idempotency_token &&
      dictContains s.idempotency_tokens (idempotency_token.getD "") then
    match dictGet s.idempotency_tokens (idempotency_token.getD "") with
    | none => none
    | some portfolio_id =>
      match dictGet s.portfolios portfolio_id with
      | none => none
      | some portfolio => some (s, portfolio.to_dict, portfolio.tags)
  else
    let portfolio_id := uuid4 s.uuid_counter
    let portfolio : Portfolio :=
      { id := portfolio_id
        display_name := display_name
        description := description.getD ""
        provider_name := provider_name
        created_time := s.clock
        tags := tags.getD []
        region_name := s.region_name
        account_id := s.account_id }
    let s1 := { s with
      portfolios := dictSet s.portfolios portfolio_id portfolio
      uuid_counter := s.uuid_counter + 1
      clock := s.clock + 1 }
    let s2 :=
      if truthyStr idempotency_token then
        { s1 with idempotency_tokens := (dictSet s1.idempotency_tokens
            (idempotency_token.getD "") portfolio_id) }
      else s1
    let s3 := { s2 with
      portfolio_access := dictSet s2.portfolio_access portfolio_id [] }
    some (s3, portfolio.to_dict, portfolio.tags)

/-- `create_portfolio_share`: `None` for an unknown portfolio; a truthy
`account_id` is appended to the access list when absent (no token); a
truthy `organization_node` yields a share token carrying the flags. -/
def create_portfolio_share (s : ServiceCatalogBackend)
    (_accept_language : Option String) (portfolio_id : String)
    (account_id : Option String) (organization_node : Option StrDict)
    (share_tag_options : Bool) (share_principals : Bool) :
    ServiceCatalogBackend × Option String :=
  if !dictContains s.portfolios portfolio_id then
    (s, none)
  else if truthyStr account_id then
    let s1 :=
      if !dictContains s.portfolio_access portfolio_id then
        { s with portfolio_access := dictSet s.portfolio_access portfolio_id [] }
      else s
    let lst := s1.accessOf portfolio_id
    let s2 :=
      if !lst.contains (account_id.getD "") then
        { s1 with portfolio_access := (dictSet s1.portfolio_access portfolio_id
            (lst ++ [account_id.getD ""])) }
      else s1
    (s2, none)
  else
    let portfolio_share_token :=
      if truthyDict organization_node then
        let org_type := dict_get_default (organization_node.getD []) "Type" ""
        let org_value := dict_get_default (organization_node.getD []) "Value" ""
        let tok0 := "share-" ++ portfolio_id ++ "-" ++ org_type ++ "-" ++ org_value
        let tok1 := if share_tag_options then tok0 ++ "-tags" else tok0
        let tok2 := if share_principals then tok1 ++ "-principals" else tok1
        some tok2
      else none
    (s, portfolio_share_token)

/-- `list_portfolios`: all summaries in map-iteration order; the next
token is always `None` (pagination is an explicit TODO in the source). -/
def list_portfolios (s : ServiceCatalogBackend)
    (_accept_language : Option String) (_page_token : Option Nat)
    (_page_size : Option Nat) : List PortfolioSummary × Option Nat :=
  (s.portfolios.map (fun e => e.snd.to_dict), none)

/-- Whether an idempotency token, when recorded, still points at a live
portfolio: the lookup `self.portfolios[portfolio_id]` performed by
`create_portfolio` on token reuse succeeds exactly under this guard. -/
def tokenLive (s : ServiceCatalogBackend) (tok : String) : Bool :=
  match dictGet s.idempotency_tokens tok with
  | none => true
  | some portfolio_id => dictContains s.portfolios portfolio_id

end ServiceCatalogBackend

/-! ### Concrete registry states used as inputs below -/

open ServiceCatalogBackend in
/-- A registry holding the single portfolio `uuid-0` (created without a
token). -/
def oneLivePortfolio : ServiceCatalogBackend :=
  match create_portfolio (init "us-east-1" "123456789012") none
      "myname" none "myprovider" none none with
  | some (s1, _, _) => s1
  | none => init "us-east-1" "123456789012"

open ServiceCatalogBackend in
/-- A registry in which token `tok-1` is recorded but the portfolio it
points at (`uuid-0`) has been deleted again. -/
def deadTokenState : ServiceCatalogBackend :=
  match create_portfolio (init "us-east-1" "123456789012") none
      "myname" none "myprovider" none (some "tok-1") with
  | some (s1, _, _) => delete_portfolio s1 none "uuid-0"
  | none => init "us-east-1" "123456789012"

open ServiceCatalogBackend in
/-- The outcome of `create_portfolio` with the empty string as
idempotency token on a fresh registry. -/
def emptyTokenFirst :
    Option (ServiceCatalogBackend × PortfolioSummary × List Tag) :=
  create_portfolio (init "us-east-1" "123456789012") none
    "myname" none "myprovider" none (some "")

open ServiceCatalogBackend in
/-- A second `create_portfolio` call with the empty-string token,
following `emptyTokenFirst`. -/
def emptyTokenSecond :
    Option (ServiceCatalogBackend × PortfolioSummary × List Tag) :=
  match emptyTokenFirst with
  | some (s1, _, _) =>
    create_portfolio s1 none "myname" none "myprovider" none (some "")
  | none => none

open ServiceCatalogBackend in
/-- The portfolio `uuid-0` with access granted, in order, to the
accounts `111111111111` and `222222222222`. -/
def twoGrantState : ServiceCatalogBackend :=
  (create_portfolio_share
    ((create_portfolio_share oneLivePortfolio none "uuid-0"
        (some "111111111111") none false false).1)
    none "uuid-0" (some "222222222222") none false false).1

open ServiceCatalogBackend in
/-- The live portfolio `uuid-0` after two `create_portfolio_share` calls
with the empty string as account id. -/
def emptyAccountTwice : ServiceCatalogBackend :=
  (create_portfolio_share
    ((create_portfolio_share oneLivePortfolio none "uuid-0"
        (some "") none false false).1)
    none "uuid-0" (some "") none false false).1

/-! ### Operation traces over the registry -/

/-- One call to any of the six backend operations, with its arguments. -/
inductive CatalogOp where
  | createPortfolio : Option String → String → Option String → String →
      Option (List Tag) → Option String → CatalogOp
  | deletePortfolio : Option String → String → CatalogOp
  | createPortfolioShare : Option String → String → Option String →
      Option StrDict → Bool → Bool → CatalogOp
  | deletePortfolioShare : Option String → String → Option String →
      Option StrDict → CatalogOp
  | listPortfolioAccess : Option String → String → Option String →
      Option Nat → Option Nat → CatalogOp
  | listPortfolios : Option String → Option Nat → Option Nat → CatalogOp

open ServiceCatalogBackend in
/-- The registry state after one operation.  A `KeyError` escaping
`create_portfolio` happens before any mutation, so the state is
unchanged; the two list operations read but never write. -/
def applyOp (s : ServiceCatalogBackend) : CatalogOp → ServiceCatalogBackend
  | .createPortfolio al dn d pn tg tok =>
    match create_portfolio s al dn d pn tg tok with
    | some (s1, _, _) => s1
    | none => s
  | .deletePortfolio al id => delete_portfolio s al id
  | .createPortfolioShare al pid aid node sto sp =>
    (create_portfolio_share s al pid aid node sto sp).1
  | .deletePortfolioShare al pid aid node =>
    (delete_portfolio_share s al pid aid node).1
  | .listPortfolioAccess _ _ _ _ _ => s
  | .listPortfolios _ _ _ => s

/-- Every portfolio id present in the portfolios map has an access-list
entry (possibly empty) in the portfolio_access map. -/
def accessInvariant (s : ServiceCatalogBackend) : Prop :=
  ∀ k, dictContains s.portfolios k = true →
    dictContains s.portfolio_access k = true

/-! ### Association-list (Python dict) lemmas -/

theorem dictGet_nil {α : Type} (j : String) :
    dictGet ([] : List (String × α)) j = none := rfl

theorem dictGet_cons {α : Type} (e : String × α) (rest : List (String × α))
    (j : String) :
    dictGet (e :: rest) j = if e.fst = j then some e.snd else dictGet rest j := by
  by_cases h : e.fst = j
  · rw [dictGet, List.find?_cons_of_pos _ (by simp [h]), if_pos h]; rfl
  · rw [dictGet, List.find?_cons_of_neg _ (by simp [h]), if_neg h]; rfl

theorem dictContains_cons {α : Type} (e : String × α)
    (rest : List (String × α)) (j : String) :
    dictContains (e :: rest) j =
      if e.fst = j then true else dictContains rest j := by
  by_cases h : e.fst = j <;> simp [dictContains, h]

theorem dictSet_cons {α : Type} (e : String × α) (rest : List (String × α))
    (k : String) (v : α) :
    dictSet (e :: rest) k v =
      if e.fst = k then (k, v) :: rest else e :: dictSet rest k v := by
  by_cases h : e.fst = k <;> simp [dictSet, h]

theorem dictDel_cons {α : Type} (e : String × α) (rest : List (String × α))
    (k : String) :
    dictDel (e :: rest) k =
      if e.fst = k then dictDel rest k else e :: dictDel rest k := by
  by_cases h : e.fst = k <;> simp [dictDel, List.filter_cons, h]

theorem dictGet_dictSet {α : Type} (d : List (String × α)) (k j : String)
    (v : α) :
    dictGet (dictSet d k v) j = if j = k then some v else dictGet d j := by
  induction d with
  | nil => simp [dictSet, dictGet_cons, dictGet_nil, eq_comm]
  | cons e rest ih =>
    rw [dictSet_cons]
    by_cases hk : e.fst = k
    · rw [if_pos hk, dictGet_cons, dictGet_cons]
      by_cases hj : j = k
      · simp [hj]
      · have hne : e.fst ≠ j := by rw [hk]; exact fun hh => hj hh.symm
        simp [hj, Ne.symm hj, hne]
    · rw [if_neg hk, dictGet_cons, dictGet_cons, ih]
      by_cases he : e.fst = j
      · have : ¬j = k := fun hh => hk (he.symm ▸ hh ▸ rfl)
        simp [he, this]
      · simp [he]

theorem dictContains_eq_isSome {α : Type} (d : List (String × α))
    (k : String) : dictContains d k = (dictGet d k).isSome := by
  induction d with
  | nil => simp [dictContains, dictGet_nil]
  | cons e rest ih =>
    rw [dictContains_cons, dictGet_cons]
    by_cases h : e.fst = k <;> simp [h, ih]

theorem dictGet_dictDel {α : Type} (d : List (String × α)) (k j : String) :
    dictGet (dictDel d k) j = if j = k then none else dictGet d j := by
  induction d with
  | nil => simp [dictDel, dictGet_nil, List.filter_nil]
  | cons e rest ih =>
    rw [dictDel_cons]
    by_cases hk : e.fst = k
    · rw [if_pos hk, ih, dictGet_cons]
      by_cases hj : j = k
      · simp [hj]
      · have hne : e.fst ≠ j := by rw [hk]; exact fun hh => hj hh.symm
        simp [hj, hne]
    · rw [if_neg hk, dictGet_cons, ih, dictGet_cons]
      by_cases he : e.fst = j
      · have : ¬j = k := fun hh => hk (he.symm ▸ hh ▸ rfl)
        simp [he, this]
      · simp [he]

theorem dictDel_of_not_contains {α : Type} (d : List (String × α))
    (k : String) (h : dictContains d k = false) : dictDel d k = d := by
  induction d with
  | nil => rfl
  | cons e rest ih =>
    rw [dictContains_cons] at h
    by_cases he : e.fst = k
    · rw [if_pos he] at h; exact absurd h (by simp)
    · rw [if_neg he] at h
      rw [dictDel_cons, if_neg he, ih h]

theorem dictContains_dictSet {α : Type} (d : List (String × α))
    (k j : String) (v : α) :
    dictContains (dictSet d k v) j = if j = k then true else dictContains d j := by
  rw [dictContains_eq_isSome, dictGet_dictSet, dictContains_eq_isSome]
  by_cases h : j = k <;> simp [h]

theorem dictContains_dictDel {α : Type} (d : List (String × α))
    (k j : String) :
    dictContains (dictDel d k) j = if j = k then false else dictContains d j := by
  rw [dictContains_eq_isSome, dictGet_dictDel, dictContains_eq_isSome]
  by_cases h : j = k <;> simp [h]

theorem dictContains_dictDel_self {α : Type} (d : List (String × α))
    (k : String) : dictContains (dictDel d k) k = false := by
  rw [dictContains_dictDel]; simp

theorem dictDel_dictDel_self {α : Type} (d : List (String × α))
    (k : String) : dictDel (dictDel d k) k = dictDel d k :=
  dictDel_of_not_contains _ _ (dictContains_dictDel_self d k)

theorem dictSet_dictSet_self {α : Type} (d : List (String × α))
    (k : String) (v w : α) : dictSet (dictSet d k v) k w = dictSet d k w := by
  induction d with
  | nil => simp [dictSet]
  | cons e rest ih =>
    rw [dictSet_cons]
    by_cases he : e.fst = k
    · rw [if_pos he, dictSet_cons, if_pos rfl, dictSet_cons, if_pos he]
    · rw [if_neg he, dictSet_cons, if_neg he, dictSet_cons, if_neg he, ih]

theorem dictGet_eq_none_of_not_contains {α : Type} (d : List (String × α))
    (k : String) (h : dictContains d k = false) : dictGet d k = none := by
  rw [dictContains_eq_isSome] at h
  cases hg : dictGet d k with
  | none => rfl
  | some v => rw [hg] at h; simp at h

namespace ServiceCatalogBackend

/-! ### Behavioral lemmas about the operations -/

/-- `delete_portfolio` unconditionally removes the key from both maps
(the source's `if id in d: del d[id]` pattern equals an unconditional
keyed removal). -/
theorem delete_portfolio_eq (s : ServiceCatalogBackend)
    (al : Option String) (id : String) :
    delete_portfolio s al id =
      { s with portfolio_access := dictDel s.portfolio_access id
               portfolios := dictDel s.portfolios id } := by
  unfold delete_portfolio
  by_cases h1 : dictContains s.portfolio_access id = true <;>
    by_cases h2 : dictContains s.portfolios id = true <;>
      simp [h1, h2, dictDel_of_not_contains, Bool.not_eq_true] at *

end ServiceCatalogBackend

open ServiceCatalogBackend

/-- C7: `delete_portfolio` removes both the portfolio entry and its
access-list entry, never fails (it is a total function), and deleting
the same id a second time leaves the state exactly as after the first
deletion. -/
theorem delete_portfolio_removes_and_idempotent
    (s : ServiceCatalogBackend) (al al2 : Option String) (id : String) :
    dictContains (delete_portfolio s al id).portfolios id = false ∧
    dictContains (delete_portfolio s al id).portfolio_access id = false ∧
    delete_portfolio (delete_portfolio s al id) al2 id =
      delete_portfolio s al id := by
  rw [delete_portfolio_eq, delete_portfolio_eq]
  refine ⟨dictContains_dictDel_self _ _, dictContains_dictDel_self _ _, ?_⟩
  simp [dictDel_dictDel_self]

/-- C3: `create_portfolio_share` on a portfolio id absent from the
portfolios map returns `None` and leaves the whole registry state
unchanged, whatever the other arguments are. -/
theorem create_portfolio_share_unknown_id
    (s : ServiceCatalogBackend) (al : Option String) (pid : String)
    (aid : Option String) (node : Option StrDict) (sto sp : Bool)
    (h : dictContains s.portfolios pid = false) :
    create_portfolio_share s al pid aid node sto sp = (s, none) := by
  unfold create_portfolio_share
  simp [h]

theorem create_portfolio_share_unknown_id_witness :
    dictContains (init "us-east-1" "123456789012").portfolios "p-missing" = false ∧
    create_portfolio_share (init "us-east-1" "123456789012") none "p-missing"
      (some "111111111111") none true false = (init "us-east-1" "123456789012", none) :=
  ⟨by decide, create_portfolio_share_unknown_id (init "us-east-1" "123456789012")
    none "p-missing" (some "111111111111") none true false (by decide)⟩

/-- C5: on a live portfolio, `create_portfolio_share` with no account id
and an organization node carrying Type `t` and Value `v` returns the
token `share-<pid>-<t>-<v>`, with `-tags` appended exactly when
`share_tag_options` and then `-principals` exactly when
`share_principals`. -/
theorem create_portfolio_share_org_token
    (s : ServiceCatalogBackend) (al : Option String) (pid t v : String)
    (sto sp : Bool) (h : dictContains s.portfolios pid = true) :
    (create_portfolio_share s al pid none
        (some [("Type", t), ("Value", v)]) sto sp).2 =
      some ((("share-" ++ pid ++ "-" ++ t ++ "-" ++ v) ++
        (if sto then "-tags" else "")) ++
        (if sp then "-principals" else "")) := by
  have hT : dict_get_default [("Type", t), ("Value", v)] "Type" "" = t := by
    simp [dict_get_default, dictGet_cons]
  have hV : dict_get_default [("Type", t), ("Value", v)] "Value" "" = v := by
    simp [dict_get_default, dictGet_cons, dictGet_nil]
  by_cases hs : sto <;> by_cases hp : sp <;>
    simp [create_portfolio_share, h, truthyStr, truthyDict, hT, hV, hs, hp,
      String.append_empty]

theorem create_portfolio_share_org_token_witness :
    dictContains oneLivePortfolio.portfolios "uuid-0" = true ∧
    (create_portfolio_share oneLivePortfolio none "uuid-0" none
        (some [("Type", "ORGANIZATION"), ("Value", "o-1")]) true true).2 =
      some ((("share-" ++ "uuid-0" ++ "-" ++ "ORGANIZATION" ++ "-" ++ "o-1") ++
        (if true then "-tags" else "")) ++
        (if true then "-principals" else "")) :=
  ⟨by decide, create_portfolio_share_org_token oneLivePortfolio none "uuid-0"
    "ORGANIZATION" "o-1" true true (by decide)⟩

/-- C10: with `description = None` and `tags = None` and an idempotency
token that is not a recorded one (in particular absent or fresh),
`create_portfolio` stores and returns the empty string as description
and the empty list as tags. -/
theorem create_portfolio_none_defaults
    (s : ServiceCatalogBackend) (al : Option String) (dn pn : String)
    (tok : Option String)
    (h : (truthyStr tok &&
      dictContains s.idempotency_tokens (tok.getD "")) = false) :
    ∃ s1 sum,
      create_portfolio s al dn none pn none tok =
        some (s1, sum, ([] : List Tag)) ∧
      sum.Description = "" ∧
      ∃ p, dictGet s1.portfolios sum.Id = some p ∧
        p.description = "" ∧ p.tags = [] := by
  unfold create_portfolio
  rw [if_neg (by simp [h])]
  refine ⟨_, _, rfl, rfl, ?_⟩
  by_cases ht : truthyStr tok = true <;>
    simp [ht, Portfolio.to_dict, dictGet_dictSet]

theorem create_portfolio_none_defaults_witness :
    ((truthyStr (some "tok-w") &&
      dictContains (init "us-east-1" "123456789012").idempotency_tokens
        ((some "tok-w").getD "")) = false) ∧
    (∃ s1 sum,
      create_portfolio (init "us-east-1" "123456789012") none "myname" none
          "myprovider" none (some "tok-w") =
        some (s1, sum, ([] : List Tag)) ∧
      sum.Description = "" ∧
      ∃ p, dictGet s1.portfolios sum.Id = some p ∧
        p.description = "" ∧ p.tags = []) :=
  ⟨by decide, create_portfolio_none_defaults (init "us-east-1" "123456789012")
    none "myname" "myprovider" (some "tok-w") (by decide)⟩

/-- C2 (amended): `create_portfolio` returns normally — a `(summary,
tags)` pair — whenever its idempotency token is absent, empty, or, if
recorded, still maps to a live portfolio.  (The unamended claim fails:
reusing a token whose portfolio was deleted raises `KeyError`, see the
counterexample.) -/
theorem create_portfolio_total_of_tokenLive
    (s : ServiceCatalogBackend) (al : Option String) (dn : String)
    (d : Option String) (pn : String) (tg : Option (List Tag))
    (tok : Option String)
    (h : truthyStr tok = true → tokenLive s (tok.getD "") = true) :
    (create_portfolio s al dn d pn tg tok).isSome = true := by
  unfold create_portfolio
  by_cases hb : (truthyStr tok &&
      dictContains s.idempotency_tokens (tok.getD "")) = true
  · rw [if_pos hb]
    have ht : truthyStr tok = true := by
      rcases Bool.and_eq_true_iff.mp hb with ⟨h1, _⟩; exact h1
    have hc : dictContains s.idempotency_tokens (tok.getD "") = true := by
      rcases Bool.and_eq_true_iff.mp hb with ⟨_, h2⟩; exact h2
    have hl := h ht
    unfold tokenLive at hl
    rw [dictContains_eq_isSome] at hc
    cases hg : dictGet s.idempotency_tokens (tok.getD "") with
    | none => rw [hg] at hc; simp at hc
    | some pid =>
      rw [hg] at hl
      have hl2 : dictContains s.portfolios pid = true := hl
      rw [dictContains_eq_isSome] at hl2
      cases hp : dictGet s.portfolios pid with
      | none => rw [hp] at hl2; simp at hl2
      | some portfolio => simp [hp]
  · rw [if_neg hb]
    rfl

theorem create_portfolio_total_of_tokenLive_witness :
    (truthyStr (some "tok-1") = true →
      tokenLive (init "us-east-1" "123456789012") ((some "tok-1").getD "") = true) ∧
    (create_portfolio (init "us-east-1" "123456789012") none "myname" none
      "myprovider" none (some "tok-1")).isSome = true :=
  ⟨by decide, create_portfolio_total_of_tokenLive
    (init "us-east-1" "123456789012") none "myname" none "myprovider" none
    (some "tok-1") (by decide)⟩

/-- C2 counterexample: after creating a portfolio with token `tok-1` and
deleting that portfolio, a second `create_portfolio` with `tok-1` hits
`self.portfolios[portfolio_id]` on a missing key — a `KeyError`
(`none`), not a `(summary, tags)` pair — although `tok-1` is still
recorded in the token map. -/
theorem create_portfolio_dead_token_counterexample :
    create_portfolio deadTokenState none "other" none "other" none
      (some "tok-1") = none ∧
    dictContains deadTokenState.idempotency_tokens "tok-1" = true := by
  decide

/-- Creating with a truthy, unrecorded token stores a portfolio `p`,
records the token as mapping to `p.id`, and returns `p`'s summary and
tags. -/
theorem create_portfolio_fresh_spec
    (s : ServiceCatalogBackend) (al : Option String) (dn : String)
    (d : Option String) (pn : String) (tg : Option (List Tag)) (tok : String)
    (ht : truthyStr (some tok) = true)
    (hc : dictContains s.idempotency_tokens tok = false) :
    ∃ s1 p,
      create_portfolio s al dn d pn tg (some tok) = some (s1, p.to_dict, p.tags) ∧
      dictGet s1.idempotency_tokens tok = some p.id ∧
      dictGet s1.portfolios p.id = some p := by
  unfold create_portfolio
  rw [if_neg (by simp [hc])]
  refine ⟨_, _, rfl, ?_, ?_⟩
  · simp [ht, dictGet_dictSet]
  · simp [ht, dictGet_dictSet]

/-- Creating with a truthy token that is recorded and maps to a live
portfolio returns that portfolio's summary and tags and leaves the
state untouched. -/
theorem create_portfolio_reuse_spec
    (s : ServiceCatalogBackend) (al : Option String) (dn : String)
    (d : Option String) (pn : String) (tg : Option (List Tag)) (tok pid : String)
    (p : Portfolio) (ht : truthyStr (some tok) = true)
    (hg : dictGet s.idempotency_tokens tok = some pid)
    (hp : dictGet s.portfolios pid = some p) :
    create_portfolio s al dn d pn tg (some tok) = some (s, p.to_dict, p.tags) := by
  unfold create_portfolio
  rw [if_pos (by simp [ht, dictContains_eq_isSome, hg])]
  simp only [Option.getD_some]
  simp only [hg, hp]

/-- C1 (amended): for a nonempty idempotency token that, if already
recorded, maps to a live portfolio, two `create_portfolio` calls with
that token (with any inputs) return the same portfolio summary — hence
the same id — and the same tags, and the second call leaves the state
(in particular the portfolios map) exactly as the first left it.  (The
unamended claim fails for the empty-string token, which Python treats as
falsy: see the counterexample.) -/
theorem create_portfolio_idempotent_token
    (s : ServiceCatalogBackend) (al1 al2 : Option String) (dn1 dn2 : String)
    (d1 d2 : Option String) (pn1 pn2 : String) (tg1 tg2 : Option (List Tag))
    (tok : String) (htok : tok ≠ "") (hlive : tokenLive s tok = true) :
    ∃ s1 sum tags1,
      create_portfolio s al1 dn1 d1 pn1 tg1 (some tok) =
        some (s1, sum, tags1) ∧
      create_portfolio s1 al2 dn2 d2 pn2 tg2 (some tok) =
        some (s1, sum, tags1) := by
  have ht : truthyStr (some tok) = true := by simp [truthyStr, htok]
  by_cases hc : dictContains s.idempotency_tokens tok = true
  · rw [dictContains_eq_isSome] at hc
    cases hg : dictGet s.idempotency_tokens tok with
    | none => rw [hg] at hc; simp at hc
    | some pid =>
      unfold tokenLive at hlive
      rw [hg] at hlive
      have hlive2 : dictContains s.portfolios pid = true := hlive
      rw [dictContains_eq_isSome] at hlive2
      cases hp : dictGet s.portfolios pid with
      | none => rw [hp] at hlive2; simp at hlive2
      | some p =>
        exact ⟨s, p.to_dict, p.tags,
          create_portfolio_reuse_spec s al1 dn1 d1 pn1 tg1 tok pid p ht hg hp,
          create_portfolio_reuse_spec s al2 dn2 d2 pn2 tg2 tok pid p ht hg hp⟩
  · obtain ⟨s1, p, e1, hg1, hp1⟩ :=
      create_portfolio_fresh_spec s al1 dn1 d1 pn1 tg1 tok ht
        (by simpa using hc)
    exact ⟨s1, p.to_dict, p.tags, e1,
      create_portfolio_reuse_spec s1 al2 dn2 d2 pn2 tg2 tok p.id p ht hg1 hp1⟩

theorem create_portfolio_idempotent_token_witness :
    ("tok-1" : String) ≠ "" ∧
    tokenLive (init "us-east-1" "123456789012") "tok-1" = true ∧
    (∃ s1 sum tags1,
      create_portfolio (init "us-east-1" "123456789012") none "myname" none
        "myprovider" none (some "tok-1") = some (s1, sum, tags1) ∧
      create_portfolio s1 none "othername" none "otherprovider" none
        (some "tok-1") = some (s1, sum, tags1)) :=
  ⟨by decide, by decide,
    create_portfolio_idempotent_token (init "us-east-1" "123456789012")
      none none "myname" "othername" none none "myprovider" "otherprovider"
      none none "tok-1" (by decide) (by decide)⟩

/-- C1 counterexample: with the empty string as idempotency token — a
token Python treats as falsy — the two calls return different portfolio
ids (`uuid-0` then `uuid-1`) and the second call does add a new entry to
the portfolios map (its size goes from 1 to 2). -/
theorem create_portfolio_empty_token_counterexample :
    (emptyTokenFirst.map fun r => r.2.1.Id) = some "uuid-0" ∧
    (emptyTokenSecond.map fun r => r.2.1.Id) = some "uuid-1" ∧
    (emptyTokenFirst.map fun r => r.1.portfolios.length) = some 1 ∧
    (emptyTokenSecond.map fun r => r.1.portfolios.length) = some 2 := by
  decide

/-- C6 (amended): `delete_portfolio_share` returns a non-`None` share
token exactly when `organization_node` is given as a truthy (non-empty)
node — independently of the portfolio's existence and of whether any
removal happened — and, when `account_id` is given non-empty, the first
occurrence of that account id is removed from the portfolio's access
list (`list.remove`), which for a duplicate-free list removes it
entirely.  (The unamended "if and only if organization_node is given"
fails for the empty node `{}`, which Python treats as falsy: see the
counterexample.) -/
theorem delete_portfolio_share_token_and_removal
    (s : ServiceCatalogBackend) (al : Option String) (pid : String)
    (aid : Option String) (node : Option StrDict) :
    ((delete_portfolio_share s al pid aid node).2).isSome = truthyDict node ∧
    (delete_portfolio_share s al pid aid node).1.accessOf pid =
      (if truthyStr aid = true then (s.accessOf pid).erase (aid.getD "")
       else s.accessOf pid) := by
  constructor
  · unfold delete_portfolio_share
    by_cases hn : truthyDict node = true <;> simp [hn]
  · unfold delete_portfolio_share
    by_cases ha : truthyStr aid = true
    · rw [if_pos ha]
      by_cases hc : dictContains s.portfolio_access pid = true
      · simp only [ha, hc, Bool.and_self, if_true]
        by_cases hm : ((s.accessOf pid).contains (aid.getD "")) = true
        · have hmem : (aid.getD "") ∈ (dictGet s.portfolio_access pid).getD [] := by
            simpa [accessOf] using hm
          simp [accessOf, hmem, dictGet_dictSet]
        · have hnm : (aid.getD "") ∉ (dictGet s.portfolio_access pid).getD [] := by
            simpa [accessOf] using hm
          simp [accessOf, hnm, List.erase_of_not_mem hnm]
      · have h0 : s.accessOf pid = [] := by
          unfold accessOf
          rw [dictGet_eq_none_of_not_contains _ _ (by simpa using hc)]
          rfl
        simp [hc, h0]
    · simp [ha]

/-- C6 counterexample: with `organization_node` given as the empty node
`{}` — which Python treats as falsy — `delete_portfolio_share` returns
`None`, although an organization node was given. -/
theorem delete_portfolio_share_empty_node_counterexample :
    (delete_portfolio_share (init "us-east-1" "123456789012") none "p-1" none
      (some ([] : StrDict))).2 = none ∧
    some ([] : StrDict) ≠ (none : Option StrDict) := by
  decide

/-- One `create_portfolio_share` call with a truthy account id on a live
portfolio: no token, portfolios untouched, and the account id is
appended to the access list exactly when it was absent. -/
theorem create_portfolio_share_account_spec
    (s : ServiceCatalogBackend) (al : Option String) (pid a : String)
    (node : Option StrDict) (sto sp : Bool)
    (ha : truthyStr (some a) = true)
    (hp : dictContains s.portfolios pid = true) :
    (create_portfolio_share s al pid (some a) node sto sp).2 = none ∧
    (create_portfolio_share s al pid (some a) node sto sp).1.portfolios =
      s.portfolios ∧
    (create_portfolio_share s al pid (some a) node sto sp).1.accessOf pid =
      (if (s.accessOf pid).contains a = true then s.accessOf pid
       else s.accessOf pid ++ [a]) := by
  unfold create_portfolio_share
  rw [if_neg (by simp [hp]), if_pos ha]
  by_cases hc : dictContains s.portfolio_access pid = true
  · simp only [hc, Bool.not_true, Bool.false_eq_true, if_false]
    by_cases hm : ((s.accessOf pid).contains a) = true
    · have hmem : a ∈ (dictGet s.portfolio_access pid).getD [] := by
        simpa [accessOf] using hm
      simp [hm, accessOf, hmem]
    · have hnm : a ∉ (dictGet s.portfolio_access pid).getD [] := by
        simpa [accessOf] using hm
      simp [hm, accessOf, hnm, dictGet_dictSet]
  · have h0 : dictGet s.portfolio_access pid = none :=
      dictGet_eq_none_of_not_contains _ _ (by simpa using hc)
    simp [hc, accessOf, h0, dictGet_dictSet, dictSet_dictSet_self]

/-- C4 (amended): for a live portfolio and a nonempty account id `a`,
two `create_portfolio_share` calls with `account_id = a` both return
`None`, and they leave `max(previous count, 1)` occurrences of `a` in
the access list — in particular exactly one when `a` did not occur more
than once before, as in every state the operations themselves build.
(The unamended "every account id" fails for the empty string, which
Python treats as falsy: see the counterexample.) -/
theorem create_portfolio_share_account_twice
    (s : ServiceCatalogBackend) (al1 al2 : Option String) (pid a : String)
    (node1 node2 : Option StrDict) (sto1 sp1 sto2 sp2 : Bool)
    (ha : a ≠ "") (hp : dictContains s.portfolios pid = true) :
    (create_portfolio_share s al1 pid (some a) node1 sto1 sp1).2 = none ∧
    (create_portfolio_share
      (create_portfolio_share s al1 pid (some a) node1 sto1 sp1).1
      al2 pid (some a) node2 sto2 sp2).2 = none ∧
    List.count a
      ((create_portfolio_share
        (create_portfolio_share s al1 pid (some a) node1 sto1 sp1).1
        al2 pid (some a) node2 sto2 sp2).1.accessOf pid) =
      max (List.count a (s.accessOf pid)) 1 := by
  have hta : truthyStr (some a) = true := by simp [truthyStr, ha]
  obtain ⟨t1, q1, r1⟩ :=
    create_portfolio_share_account_spec s al1 pid a node1 sto1 sp1 hta hp
  have hp2 : dictContains
      (create_portfolio_share s al1 pid (some a) node1 sto1 sp1).1.portfolios
      pid = true := by rw [q1]; exact hp
  obtain ⟨t2, _, r2⟩ :=
    create_portfolio_share_account_spec _ al2 pid a node2 sto2 sp2 hta hp2
  refine ⟨t1, t2, ?_⟩
  rw [r2, r1]
  by_cases hm : ((s.accessOf pid).contains a) = true
  · have hmem : a ∈ s.accessOf pid := by simpa using hm
    have h1 : 1 ≤ List.count a (s.accessOf pid) := List.count_pos_iff.mpr hmem
    simp only [hm, if_true]
    exact (Nat.max_eq_left h1).symm
  · have hnm : a ∉ s.accessOf pid := by simpa using hm
    have h0 : List.count a (s.accessOf pid) = 0 := List.count_eq_zero.mpr hnm
    have hc1 : ((s.accessOf pid ++ [a]).contains a) = true := by simp
    simp [hm, hnm, hc1, List.count_append, h0]

theorem create_portfolio_share_account_twice_witness :
    ("111111111111" : String) ≠ "" ∧
    dictContains oneLivePortfolio.portfolios "uuid-0" = true ∧
    ((create_portfolio_share oneLivePortfolio none "uuid-0"
        (some "111111111111") none false false).2 = none ∧
      (create_portfolio_share
        (create_portfolio_share oneLivePortfolio none "uuid-0"
          (some "111111111111") none false false).1
        none "uuid-0" (some "111111111111") none false false).2 = none ∧
      List.count "111111111111"
        ((create_portfolio_share
          (create_portfolio_share oneLivePortfolio none "uuid-0"
            (some "111111111111") none false false).1
          none "uuid-0" (some "111111111111") none false false).1.accessOf
          "uuid-0") =
        max (List.count "111111111111" (oneLivePortfolio.accessOf "uuid-0")) 1) :=
  ⟨by decide, by decide,
    create_portfolio_share_account_twice oneLivePortfolio none none "uuid-0"
      "111111111111" none none false false false false (by decide) (by decide)⟩

/-- C4 counterexample: with the empty string as account id — which
Python treats as falsy — two `create_portfolio_share` calls on the live
portfolio `uuid-0` leave zero occurrences of that account id in the
access list, not exactly one. -/
theorem create_portfolio_share_empty_account_counterexample :
    dictContains oneLivePortfolio.portfolios "uuid-0" = true ∧
    List.count "" (emptyAccountTwice.accessOf "uuid-0") = 0 := by
  decide

/-- C8: `list_portfolio_access` pages the access list in insertion
order: each page is a contiguous, order-preserving slice of the record
list built from the portfolio's access list, holds at most `page_size`
records (20 when `page_size` is not given), and after granting access to
`111111111111` then `222222222222` it returns both, in that order. -/
theorem list_portfolio_access_pages
    (s : ServiceCatalogBackend) (al : Option String) (pid : String)
    (opid : Option String) (ptok psz : Option Nat) :
    ((list_portfolio_access s al pid opid ptok psz).1).length ≤ psz.getD 20 ∧
    (list_portfolio_access s al pid opid ptok psz).1 <:+:
      s.list_portfolio_access_results pid ∧
    (list_portfolio_access twoGrantState none "uuid-0" none none none).1 =
      [⟨"111111111111"⟩, ⟨"222222222222"⟩] := by
  refine ⟨?_, ?_, by decide⟩
  · unfold list_portfolio_access paginate
    simp [List.length_take]
  · unfold list_portfolio_access paginate
    exact ((List.take_prefix _ _).isInfix).trans ((List.drop_suffix _ _).isInfix)

/-- Updating one access-list entry (at any key, to any list) preserves
the access invariant. -/
theorem accessInvariant_dictSet_access (s : ServiceCatalogBackend)
    (pid : String) (L : List String) (h : accessInvariant s) :
    accessInvariant
      { s with portfolio_access := dictSet s.portfolio_access pid L } := by
  intro k hk
  have hk2 : dictContains s.portfolios k = true := hk
  show dictContains (dictSet s.portfolio_access pid L) k = true
  rw [dictContains_dictSet]
  by_cases hkp : k = pid
  · rw [if_pos hkp]
  · rw [if_neg hkp]; exact h k hk2

/-- A successful `create_portfolio` preserves the access invariant: the
fresh portfolio gets an empty access list, everything else is kept. -/
theorem accessInvariant_create_portfolio (s : ServiceCatalogBackend)
    (al : Option String) (dn : String) (d : Option String) (pn : String)
    (tg : Option (List Tag)) (tok : Option String)
    (s1 : ServiceCatalogBackend) (sum : PortfolioSummary) (tags : List Tag)
    (h : accessInvariant s)
    (e : create_portfolio s al dn d pn tg tok = some (s1, sum, tags)) :
    accessInvariant s1 := by
  unfold create_portfolio at e
  by_cases hb : (truthyStr tok &&
      dictContains s.idempotency_tokens (tok.getD "")) = true
  · rw [if_pos hb] at e
    cases hg : dictGet s.idempotency_tokens (tok.getD "") with
    | none => rw [hg] at e; simp at e
    | some pid =>
      cases hp : dictGet s.portfolios pid with
      | none => simp [hg, hp] at e
      | some p =>
        simp only [hg, hp, Option.some.injEq, Prod.mk.injEq] at e
        obtain ⟨e1, -, -⟩ := e
        exact e1 ▸ h
  · rw [if_neg hb] at e
    simp only [Option.some.injEq, Prod.mk.injEq] at e
    obtain ⟨e1, -, -⟩ := e
    subst e1
    intro k hk
    by_cases hkp : k = uuid4 s.uuid_counter <;>
      by_cases ht : truthyStr tok = true <;>
        simp [ht, dictContains_dictSet, hkp] at hk ⊢ <;>
          exact h k hk

/-- `create_portfolio_share` either keeps the state or rewrites a single
access-list entry of the shared portfolio. -/
theorem create_portfolio_share_state_cases (s : ServiceCatalogBackend)
    (al : Option String) (pid : String) (aid : Option String)
    (node : Option StrDict) (sto sp : Bool) :
    (create_portfolio_share s al pid aid node sto sp).1 = s ∨
    ∃ L, (create_portfolio_share s al pid aid node sto sp).1 =
      { s with portfolio_access := dictSet s.portfolio_access pid L } := by
  unfold create_portfolio_share
  by_cases h1 : dictContains s.portfolios pid = true
  · rw [if_neg (by simp [h1])]
    by_cases h2 : truthyStr aid = true
    · rw [if_pos h2]
      by_cases h3 : dictContains s.portfolio_access pid = true
      · simp only [h3, Bool.not_true, Bool.false_eq_true, if_false]
        by_cases h4 : ((s.accessOf pid).contains (aid.getD "")) = true
        · left
          have hmem : (aid.getD "") ∈ (dictGet s.portfolio_access pid).getD [] := by
            simpa [accessOf] using h4
          simp [accessOf, hmem]
        · right
          refine ⟨s.accessOf pid ++ [aid.getD ""], ?_⟩
          have hnm : (aid.getD "") ∉ (dictGet s.portfolio_access pid).getD [] := by
            simpa [accessOf] using h4
          simp [accessOf, hnm]
      · right
        refine ⟨s.accessOf pid ++ [aid.getD ""], ?_⟩
        have h0 : dictGet s.portfolio_access pid = none :=
          dictGet_eq_none_of_not_contains _ _ (by simpa using h3)
        simp [h3, accessOf, h0, dictGet_dictSet, dictSet_dictSet_self]
    · rw [if_neg h2]; left
      by_cases hn : truthyDict node = true <;> simp [hn]
  · rw [if_pos (by simp [h1])]; left; rfl

/-- `delete_portfolio_share` either keeps the state or rewrites a single
access-list entry of the portfolio. -/
theorem delete_portfolio_share_state_cases (s : ServiceCatalogBackend)
    (al : Option String) (pid : String) (aid : Option String)
    (node : Option StrDict) :
    (delete_portfolio_share s al pid aid node).1 = s ∨
    ∃ L, (delete_portfolio_share s al pid aid node).1 =
      { s with portfolio_access := dictSet s.portfolio_access pid L } := by
  unfold delete_portfolio_share
  by_cases h1 : (truthyStr aid && dictContains s.portfolio_access pid) = true
  · simp only [h1, if_true]
    by_cases h2 : ((s.accessOf pid).contains (aid.getD "")) = true
    · right
      refine ⟨(s.accessOf pid).erase (aid.getD ""), ?_⟩
      have hmem : (aid.getD "") ∈ (dictGet s.portfolio_access pid).getD [] := by
        simpa [accessOf] using h2
      simp [accessOf, hmem]
    · left
      have hnm : (aid.getD "") ∉ (dictGet s.portfolio_access pid).getD [] := by
        simpa [accessOf] using h2
      simp [accessOf, hnm]
  · left; simp [h1]

/-- Every single operation preserves the access invariant. -/
theorem accessInvariant_applyOp (s : ServiceCatalogBackend) (op : CatalogOp)
    (h : accessInvariant s) : accessInvariant (applyOp s op) := by
  cases op with
  | createPortfolio al dn d pn tg tok =>
    simp only [applyOp]
    cases e : create_portfolio s al dn d pn tg tok with
    | none => exact h
    | some r =>
      obtain ⟨s1, sum, tags⟩ := r
      exact accessInvariant_create_portfolio s al dn d pn tg tok s1 sum tags h e
  | deletePortfolio al id =>
    show accessInvariant (delete_portfolio s al id)
    rw [delete_portfolio_eq]
    intro k hk
    have hk2 : dictContains (dictDel s.portfolios id) k = true := hk
    rw [dictContains_dictDel] at hk2
    show dictContains (dictDel s.portfolio_access id) k = true
    rw [dictContains_dictDel]
    by_cases hkp : k = id
    · rw [if_pos hkp] at hk2; exact absurd hk2 (by simp)
    · rw [if_neg hkp] at hk2
      rw [if_neg hkp]
      exact h k hk2
  | createPortfolioShare al pid aid node sto sp =>
    show accessInvariant (create_portfolio_share s al pid aid node sto sp).1
    rcases create_portfolio_share_state_cases s al pid aid node sto sp with
      hcase | ⟨L, hcase⟩
    · rw [hcase]; exact h
    · rw [hcase]; exact accessInvariant_dictSet_access s pid L h
  | deletePortfolioShare al pid aid node =>
    show accessInvariant (delete_portfolio_share s al pid aid node).1
    rcases delete_portfolio_share_state_cases s al pid aid node with
      hcase | ⟨L, hcase⟩
    · rw [hcase]; exact h
    · rw [hcase]; exact accessInvariant_dictSet_access s pid L h
  | listPortfolioAccess al pid opid ptok psz => exact h
  | listPortfolios al ptok psz => exact h

/-- C9: in every state reachable from a fresh registry by any sequence
of `create_portfolio`, `delete_portfolio`, `create_portfolio_share`,
`delete_portfolio_share`, `list_portfolio_access` and `list_portfolios`
calls, every portfolio id in the portfolios map has an entry (possibly
an empty list) in the portfolio_access map. -/
theorem reachable_access_invariant (region account : String)
    (ops : List CatalogOp) :
    accessInvariant (ops.foldl applyOp (init region account)) := by
  have hstep : ∀ s, accessInvariant s →
      accessInvariant (ops.foldl applyOp s) := by
    induction ops with
    | nil => intro s h; exact h
    | cons op rest ih =>
      intro s h
      rw [List.foldl_cons]
      exact ih _ (accessInvariant_applyOp s op h)
  refine hstep _ ?_
  intro k hk
  simp [init, dictContains] at hk

end ServiceCatalog
